import Mathlib

/-!
Verification of the c15t GitHub Action deployment/comment subsystem.

Shallow embedding: TypeScript strings are modelled as `List Char` (`Str`),
JavaScript string primitives (`indexOf`, `includes`, `substring`, `trim`,
`replace` of a fixed substring, `split`) are modelled by executable Lean
functions with the same semantics, and the effectful functions of the action
are modelled as pure functions from their inputs (with remote-API results
passed in as explicit oracle arguments) to the value they produce together
with the action they take.
-/

set_option maxRecDepth 4000

/-- TypeScript strings are modelled as lists of characters. -/
abbrev Str := List Char

/-- Whitespace as matched by JavaScript `\s` / `String.prototype.trim`. -/
def jsIsSpace (c : Char) : Bool :=
  c = ' ' ∨ c = '\t' ∨ c = '\n' ∨ c = '\r' ∨ c = '\x0b' ∨ c = '\x0c' ∨
  c = '\u00A0' ∨ c = '\u1680' ∨ ('\u2000' ≤ c ∧ c ≤ '\u200A') ∨
  c = '\u2028' ∨ c = '\u2029' ∨ c = '\u202F' ∨ c = '\u205F' ∨
  c = '\u3000' ∨ c = '\uFEFF'

/-- JavaScript `s.indexOf(pat)`: index of the first occurrence of `pat` in
`s`, or `none` where JS returns `-1`. -/
def jsIndexOf (pat : Str) : Str → Option Nat
  | [] => if pat.isPrefixOf ([] : Str) then some 0 else none
  | c :: rest =>
    if pat.isPrefixOf (c :: rest) then some 0
    else (jsIndexOf pat rest).map (· + 1)

/-- JavaScript `s.includes(pat)`. -/
def strIncludes (s pat : Str) : Bool :=
  (jsIndexOf pat s).isSome

/-- JavaScript `s.substring(a, b)`: swaps the endpoints when `a > b` and
clamps to the string length. -/
def jsSubstring (s : Str) (a b : Nat) : Str :=
  (s.take (max a b)).drop (min a b)

/-- JavaScript `s.trim()`. -/
def trimStr (s : Str) : Str :=
  ((s.dropWhile jsIsSpace).reverse.dropWhile jsIsSpace).reverse

/-- JavaScript `s.split(sep)` for a single-character separator: empty pieces
are kept. -/
def splitOnChar (sep : Char) : Str → List Str
  | [] => [[]]
  | c :: rest =>
    let r := splitOnChar sep rest
    if c = sep then [] :: r
    else
      match r with
      | [] => [[c]]
      | h :: t => (c :: h) :: t

/-- JavaScript `s.replace(pat, rep)` for a plain-string `pat`: replaces the
first occurrence only. -/
def replaceFirst (pat rep s : Str) : Str :=
  match jsIndexOf pat s with
  | some i => s.take i ++ rep ++ s.drop (i + pat.length)
  | none => s

/-- Lowercase a string character by character (JS `toLowerCase` on the
ASCII range used by this code). -/
def lowerStr (s : Str) : Str := s.map Char.toLower

/- ===================== github/pr-comment.ts ===================== -/

/-- `autoStart(header)`: start marker of this run's marker pair,
`<!-- c15t:<key>:START -->` with the key defaulting to
`c15t-docs-preview`. -/
def autoStart (header : Str) : Str :=
  let k0 : Str := if header = [] then "c15t-docs-preview".toList else header
  let k : Str := if trimStr k0 = [] then "c15t-docs-preview".toList else trimStr k0
  "<!-- c15t:".toList ++ k ++ ":START -->".toList

/-- `autoEnd(header)`: end marker of this run's marker pair. -/
def autoEnd (header : Str) : Str :=
  let k0 : Str := if header = [] then "c15t-docs-preview".toList else header
  let k : Str := if trimStr k0 = [] then "c15t-docs-preview".toList else trimStr k0
  "<!-- c15t:".toList ++ k ++ ":END -->".toList

/-- `bodyWithHeader(body, header)`: wrap a body in the marker pair, joined
with newlines. -/
def bodyWithHeader (body header : Str) : Str :=
  autoStart header ++ '\n' :: (body ++ '\n' :: autoEnd header)

/-- `bodyWithoutHeader(body, header)`: the trimmed inner content between the
first occurrence of each marker, or `""` when either marker is absent. -/
def bodyWithoutHeader (body header : Str) : Str :=
  let start := autoStart header
  match jsIndexOf start body, jsIndexOf (autoEnd header) body with
  | some i, some j => trimStr (jsSubstring body (i + start.length) j)
  | _, _ => []

/-- `getBodyOf(previous, append, hideDetails)`: the previous body to merge
during an update, `none` when not appending.  The `<details open>`
stripping regex is passed in as `stripOpen` (only applied when
`hideDetails` is set and the previous body is non-empty). -/
def getBodyOf (prevBody : Str) (app hide : Bool) (stripOpen : Str → Str) :
    Option Str :=
  if !app then none
  else if !hide ∨ prevBody = [] then some prevBody
  else some (stripOpen prevBody)

/-- `commentsEqual(body, previous, header)`: compares the two bodies after
normalising each to its trimmed inner marker content (a body without both
markers is left as-is). -/
def commentsEqual (body previous header : Str) : Bool :=
  let start := autoStart header
  let e := autoEnd header
  let normalize : Str → Str := fun s =>
    match jsIndexOf start s, jsIndexOf e s with
    | some i, some j => trimStr (jsSubstring s (i + start.length) j)
    | _, _ => s
  normalize body = normalize previous

/-- The new body written by `updateComment(id, body, header, previousBody)`:
`none` models the blank-body warning (no write). -/
def updateCommentBody (body header : Str) (previousBody : Option Str) :
    Option Str :=
  let prevTruthy : Bool := match previousBody with
    | some p => p ≠ []
    | none => false
  if body = [] ∧ prevTruthy = false then none
  else
    let raw : Str :=
      if prevTruthy then bodyWithoutHeader (previousBody.getD []) header else []
    some (if prevTruthy then bodyWithHeader (raw ++ '\n' :: body) header
          else bodyWithHeader body header)

/-- The body posted by `createComment` (no previous body in the call made by
`ensureComment`): `none` models the blank-body warning. -/
def createCommentBody (body header : Str) (previousBody : Option Str) :
    Option Str :=
  let prevTruthy : Bool := match previousBody with
    | some p => p ≠ []
    | none => false
  if body = [] ∧ prevTruthy = false then none
  else
    let raw : Str :=
      if prevTruthy then bodyWithoutHeader (previousBody.getD []) header else []
    some (if prevTruthy then bodyWithHeader (raw ++ '\n' :: body) header
          else bodyWithHeader body header)

/- ===================== steps/comment.ts (ensureComment) ===================== -/

/-- The legacy auto-generated block start literal checked by the append
migration shim in `ensureComment`. -/
def AUTO_COMMENT_START : Str :=
  "<!-- This is an auto-generated comment: c15t docs preview -->".toList

/-- The legacy auto-generated block end literal checked by the append
migration shim in `ensureComment`. -/
def AUTO_COMMENT_END : Str :=
  "<!-- end of auto-generated comment: c15t docs preview -->".toList

/-- Configuration inputs read by the sticky-comment step. -/
structure CommentCfg where
  header : Str
  append : Bool
  hideDetails : Bool
  skipUnchanged : Bool
  ignoreEmpty : Bool
deriving DecidableEq

/-- A previously found sticky comment (GraphQL node id and body; a missing
body is modelled as `""`, matching the `previous?.body || ''` reads). -/
structure PrevComment where
  id : Str
  body : Str
deriving DecidableEq

/-- `handleSkipUnchanged(effectiveBody, previousBodyRaw)`. -/
def handleSkipUnchanged (cfg : CommentCfg) (body prevRaw : Str) : Bool :=
  cfg.skipUnchanged && commentsEqual body prevRaw cfg.header

/-- The outcome of one `ensureComment` run. -/
inductive CommentAction where
  /-- no body given: skip step by ignoreEmpty -/
  | skipEmpty
  /-- `requireEffectiveBodyOrThrow` threw -/
  | throwEmpty
  /-- no previous comment: a new comment with this body is posted -/
  | create (body : Str)
  /-- `handleSkipUnchanged` returned true: no write -/
  | skipUnch
  /-- previous comment had no id: no write -/
  | noId
  /-- blank-body warning inside create/update: no write -/
  | blankWarn
  /-- the previous comment is rewritten to this body -/
  | update (newBody : Str)
deriving DecidableEq

/-- `ensureComment` as run after comment discovery: `previous` is the result
of `findPreviousComment`, `stripOpen` the `<details open>` stripping
transform, and the override options are modelled explicitly. -/
def ensureComment (cfg : CommentCfg) (stripOpen : Str → Str)
    (appendOverride hideDetailsOverride : Option Bool)
    (effectiveBody : Str) (previous : Option PrevComment) : CommentAction :=
  if effectiveBody = [] ∧ cfg.ignoreEmpty then .skipEmpty
  else if effectiveBody = [] then .throwEmpty
  else
    match previous with
    | none =>
      match createCommentBody effectiveBody cfg.header none with
      | some b => .create b
      | none => .blankWarn
    | some prev =>
      if handleSkipUnchanged cfg effectiveBody prev.body then .skipUnch
      else
        let shouldAppend0 := appendOverride.getD cfg.append
        let shouldHide := hideDetailsOverride.getD cfg.hideDetails
        let previousHasAutoBlock :=
          strIncludes prev.body AUTO_COMMENT_START &&
            strIncludes prev.body AUTO_COMMENT_END
        let shouldAppend := shouldAppend0 && previousHasAutoBlock
        let previousBody := getBodyOf prev.body shouldAppend shouldHide stripOpen
        if prev.id = [] then .noId
        else
          match updateCommentBody effectiveBody cfg.header previousBody with
          | some nb => .update nb
          | none => .blankWarn

example :
    ensureComment ⟨"h".toList, true, false, false, false⟩ (fun s => s)
      none none "B".toList
      (some ⟨"x".toList, bodyWithHeader "A".toList "h".toList⟩) =
    .update (bodyWithHeader "B".toList "h".toList) := by decide

example :
    strIncludes (bodyWithHeader "A".toList "h".toList)
      (autoStart "h".toList) = true := by decide

/- ===================== utils/errors.ts ===================== -/

/-- The `type` field of an `ActionableError`. -/
inductive ErrType where
  | deployment | authentication | configuration | apiLimit | unknownType
deriving DecidableEq

/-- `ActionableError`: typed, actionable diagnosis of a raw failure. -/
structure ActionableError where
  type : ErrType
  message : Str
  suggestion : Str
  actionItems : List Str
  helpUrl : Option Str := none
  retryable : Bool
deriving DecidableEq

namespace ErrorHandler

/-- `ErrorHandler.handleVercel`: classify a Vercel failure by lowercase
message substrings, first match wins.  The raw error is modelled by its
message string. -/
def handleVercel (message : Str) : ActionableError :=
  if strIncludes (lowerStr message) "project not found".toList then
    { type := .configuration
      message := message
      suggestion := "Check VERCEL_PROJECT_ID and VERCEL_ORG_ID secrets match your Vercel project.".toList
      actionItems := ["Verify VERCEL_PROJECT_ID exists in Vercel dashboard.".toList,
        "Confirm VERCEL_ORG_ID is the correct team/org.".toList,
        "Ensure VERCEL_TOKEN has access to the project.".toList]
      helpUrl := some "https://vercel.com/docs/concepts/projects/overview#project-id".toList
      retryable := false }
  else if strIncludes (lowerStr message) "rate limit".toList then
    { type := .apiLimit
      message := message
      suggestion := "Wait before retrying or reduce deployment frequency.".toList
      actionItems := ["Wait 10-15 minutes and retry.".toList,
        "Enable only_if_changed gating to avoid unnecessary deploys.".toList]
      retryable := true }
  else if strIncludes (lowerStr message) "build failed".toList then
    { type := .deployment
      message := message
      suggestion := "Inspect Vercel build logs and validate your build locally.".toList
      actionItems := ["Check Vercel build logs for errors.".toList,
        "Run local build: `pnpm -C .docs run build` or project-specific build.".toList,
        "Ensure required env vars are present in Vercel.".toList]
      retryable := true }
  else
    { type := .unknownType
      message := message
      suggestion := "Review error details and verify deployment configuration.".toList
      actionItems := ["Check repository secrets".toList,
        "Re-run with debug_mode: true".toList]
      retryable := true }

end ErrorHandler

/-- What `executeWithRetry` throws. -/
inductive RetryErr (E : Type) where
  /-- the original error of the failing attempt is re-thrown -/
  | original (e : E)
  /-- `new Error(last.message)` after the loop (dead for `maxRetries ≥ 1`) -/
  | wrapped (msg : Str)
  /-- `new Error('Unknown error')` when the loop never ran -/
  | unknownErr
deriving DecidableEq

/-- The throw after the loop of `executeWithRetry` (reachable only when
`maxRetries < 1`). -/
def retryExhausted (E A : Type) (last : Option ActionableError)
    (attempt : Nat) : Except (RetryErr E) A × Nat :=
  match last with
  | some ae => (.error (.wrapped ae.message), attempt - 1)
  | none => (.error .unknownErr, attempt - 1)

/-- The retry loop of `executeWithRetry`: `attempt` counts from 1; the
operation is an oracle from the attempt number to its outcome.  Returns the
result together with the number of attempts performed.  (The exponential
backoff sleep has no effect on the result and is not modelled.) -/
def retryAux {E A : Type} (op : Nat → Except E A) (cls : E → ActionableError)
    (maxRetries attempt : Nat) (last : Option ActionableError) :
    Except (RetryErr E) A × Nat :=
  if _h : attempt ≤ maxRetries then
    match op attempt with
    | .ok a => (.ok a, attempt)
    | .error e =>
      let ae := cls e
      if _h2 : ae.retryable = true ∧ attempt ≠ maxRetries then
        retryAux op cls maxRetries (attempt + 1) (some ae)
      else (.error (.original e), attempt)
  else retryExhausted E A last attempt
termination_by maxRetries + 1 - attempt
decreasing_by omega

/-- `executeWithRetry(operation, mapError, maxRetries)`. -/
def executeWithRetry {E A : Type} (op : Nat → Except E A)
    (cls : E → ActionableError) (maxRetries : Nat) :
    Except (RetryErr E) A × Nat :=
  retryAux op cls maxRetries 1 none

/- ===================== steps/changes.ts ===================== -/

/-- `parseCsv(input, fallback)`: falls back when the input is undefined or
empty, otherwise splits on commas, trims, and drops empty entries. -/
def parseCsv (input : Option Str) (fallback : List Str) : List Str :=
  match input with
  | none => fallback
  | some s =>
    if s = [] then fallback
    else ((splitOnChar ',' s).map trimStr).filter (· ≠ [])

/-- The parts of `github.context` read by the change/policy gate.  Optional
fields model possibly-absent payload values. -/
structure GhContext where
  eventName : Str
  ref : Option Str
  prBaseRef : Option Str
  prNumber : Option Nat
  beforeSha : Option Str
  sha : Str

/-- Whether the event is treated as a pull-request event. -/
def isPrEvent (ctx : GhContext) : Bool :=
  ctx.eventName = "pull_request".toList ∨ ctx.eventName = "pull_request_target".toList

/-- `ctx.ref?.replace('refs/heads/', '') || ''`: note this removes the
*first occurrence* of `refs/heads/` anywhere in the ref, not only a
prefix. -/
def strippedPushRef (ref : Option Str) : Str :=
  match ref with
  | some r => replaceFirst "refs/heads/".toList [] r
  | none => []

/-- `shouldDeployByPolicy(pushBranchesCsv, prBaseBranchesCsv)`. -/
def shouldDeployByPolicy (ctx : GhContext) (pushCsv prCsv : Option Str) : Bool :=
  let pushBranches := parseCsv pushCsv ["main".toList, "canary".toList]
  let prBaseBranches := parseCsv prCsv ["main".toList, "canary".toList]
  if isPrEvent ctx = false then
    pushBranches.contains (strippedPushRef ctx.ref)
  else
    prBaseBranches.contains (ctx.prBaseRef.getD [])

/- ===================== steps/changes.ts: glob matcher =====================

`globToRegex` escapes every regex metacharacter of the glob, then rewrites
`\*\*` to `.*` and `\*` to `[^/]*`, producing `^...$` with the `u` flag.
The resulting regex is equivalently modelled as a token list: each
non-wildcard character matches itself literally, `**` matches any run of
characters allowed by JS `.` (which excludes line terminators), and `*`
matches any run of non-`/` characters. -/

/-- One token of the compiled glob regex. -/
inductive GTok where
  | lit (c : Char)
  | anyPath
  | anySeg
deriving DecidableEq

/-- Tokenise a glob: `**` first (the `\*\*` rewrite runs before `\*`). -/
def globTokens : Str → List GTok
  | [] => []
  | '*' :: '*' :: r => .anyPath :: globTokens r
  | '*' :: r => .anySeg :: globTokens r
  | c :: r => .lit c :: globTokens r

/-- Characters matched by JS `.` without the `s` flag. -/
def jsDotOk (c : Char) : Bool :=
  c ≠ '\n' ∧ c ≠ '\r' ∧ c ≠ ' ' ∧ c ≠ ' '

/-- Full-anchored matching of the compiled glob against a path. -/
def matchGlob : List GTok → Str → Bool
  | [], s => s = []
  | .lit c :: ts, s =>
    match s with
    | [] => false
    | x :: xs => x = c && matchGlob ts xs
  | .anyPath :: ts, s =>
    (List.range (s.length + 1)).any fun k =>
      (s.take k).all jsDotOk && matchGlob ts (s.drop k)
  | .anySeg :: ts, s =>
    (List.range (s.length + 1)).any fun k =>
      (s.take k).all (· ≠ '/') && matchGlob ts (s.drop k)

/-- `(glob.match(/\*/g) || []).length`: the number of `*` characters. -/
def countStars (glob : Str) : Nat :=
  (glob.filter (· = '*')).length

/-- Validation failures of `globToRegex` (thrown as plain `Error`s). -/
inductive GlobError where
  | tooLong
  | tooManyWildcards
deriving DecidableEq

/-- `globToRegex(glob)`: validation then compilation. -/
def globToRegex (glob : Str) : Except GlobError (List GTok) :=
  if glob.length > 1000 then .error .tooLong
  else if countStars glob > 20 then .error .tooManyWildcards
  else .ok (globTokens glob)

/-- `minimatch(path, glob)`: the `try`/`catch` turns any `globToRegex`
throw into a plain non-match. -/
def minimatch (path glob : Str) : Bool :=
  match globToRegex glob with
  | .ok toks => matchGlob toks path
  | .error _ => false

/-- `detectRelevantChanges(octokit, globs)`: the two API fetches are
oracles (`prFiles` for the PR file list, `compareFiles` keyed by the
computed basehead string).  Returns `(result, warned)`; the surrounding
`try`/`catch` maps any fetch failure to `(true, warned)`. -/
def detectRelevantChanges (ctx : GhContext)
    (prFiles : Except Unit (List Str))
    (compareFiles : Str → Except Unit (List Str))
    (globs : List Str) : Bool × Bool :=
  if isPrEvent ctx then
    let number := ctx.prNumber.getD 0
    if number = 0 then (true, false)
    else
      match prFiles with
      | .ok paths => (paths.any (fun p => globs.any (fun g => minimatch p g)), false)
      | .error _ => (true, true)
  else
    let base : Str :=
      match ctx.beforeSha with
      | some b =>
        if b ≠ [] ∧ b ≠ "0000000000000000000000000000000000000000".toList then b
        else ctx.sha ++ "~1".toList
      | none => ctx.sha ++ "~1".toList
    match compareFiles (base ++ "...".toList ++ ctx.sha) with
    | .ok paths => (paths.any (fun p => globs.any (fun g => minimatch p g)), false)
    | .error _ => (true, true)

example : minimatch "docs/a/b.md".toList "docs/**".toList = true := by decide
example : minimatch "src/a.md".toList "docs/**".toList = false := by decide

/- ===================== deploy/vercel-client.ts ===================== -/

/-- The `process.env` values read by the Vercel client (absent = `none`). -/
structure VercelEnv where
  GITHUB_REF : Option Str := none
  GITHUB_HEAD_REF : Option Str := none
  GITHUB_REPOSITORY : Option Str := none
  GITHUB_REPOSITORY_OWNER : Option Str := none
  GITHUB_SHA : Option Str := none
  GITHUB_COMMIT_MESSAGE : Option Str := none
  GITHUB_COMMIT_AUTHOR_NAME : Option Str := none
  GITHUB_COMMIT_AUTHOR_LOGIN : Option Str := none
  GITHUB_ACTOR : Option Str := none
  GITHUB_PR_NUMBER : Option Str := none
  GITHUB_PR_HEAD_REF : Option Str := none
  GITHUB_PR_BASE_REF : Option Str := none
  GITHUB_BASE_REF : Option Str := none

/-- JavaScript `a || b || ''` on possibly-undefined strings. -/
def jsOr (a b : Option Str) : Str :=
  match a with
  | some x => if x ≠ [] then x else b.getD []
  | none => b.getD []

/-- `getBranch(env)`. -/
def getBranch (env : VercelEnv) : Str :=
  let refEnv := env.GITHUB_REF.getD []
  let headRef := env.GITHUB_HEAD_REF.getD []
  if headRef ≠ [] then headRef
  else if "refs/heads/".toList.isPrefixOf refEnv then
    replaceFirst "refs/heads/".toList [] refEnv
  else if "refs/tags/".toList.isPrefixOf refEnv then
    replaceFirst "refs/tags/".toList [] refEnv
  else "unknown".toList

/-- `resolveTarget(env)`. -/
def resolveTarget (env : VercelEnv) : Str :=
  if env.GITHUB_REF = some "refs/heads/main".toList then "production".toList
  else "staging".toList

/-- JS `\w` without flags: `[A-Za-z0-9_]`. -/
def isWordChar (c : Char) : Bool :=
  ('a' ≤ c ∧ c ≤ 'z') ∨ ('A' ≤ c ∧ c ≤ 'Z') ∨ ('0' ≤ c ∧ c ≤ '9') ∨ c = '_'

/-- Replace every maximal nonempty run of characters satisfying `p` by
`rep` (the `/xxx+/g` replacements in `slugify`). -/
def replaceRuns (p : Char → Bool) (rep : Str) : Str → Str
  | [] => []
  | c :: rest =>
    if p c then rep ++ replaceRuns p rep (rest.dropWhile p)
    else c :: replaceRuns p rep rest
termination_by s => s.length
decreasing_by
  · have h1 : (rest.dropWhile p).length ≤ rest.length :=
      (List.dropWhile_sublist p).length_le
    simp only [List.length_cons]
    omega
  · simp only [List.length_cons]
    omega

/-- `RE_MULTI_DASH`: collapse runs of two or more dashes to a single dash
(single dashes are left alone). -/
def collapseDashes : Str → Str
  | [] => []
  | '-' :: '-' :: r => '-' :: collapseDashes (r.dropWhile (· = '-'))
  | c :: r => c :: collapseDashes r
termination_by s => s.length
decreasing_by
  · have h1 : (r.dropWhile (· = '-')).length ≤ r.length :=
      (List.dropWhile_sublist (· = '-')).length_le
    simp only [List.length_cons]
    omega
  · simp only [List.length_cons]
    omega

/-- `slugify(input)`. -/
def slugify (input : Str) : Str :=
  let s1 := lowerStr (trimStr input)
  let s2 := replaceRuns (fun c => c = '_' ∨ jsIsSpace c) "-".toList s1
  let s3 := replaceRuns (fun c => !(isWordChar c ∨ c = '-')) [] s2
  let s4 := collapseDashes s3
  let s5 := s4.dropWhile (· = '-')
  (s5.reverse.dropWhile (· = '-')).reverse

/-- Try to match `\x7b\x7b\s*<name>\s*\x7d\x7d` at the head of `l`; on
success returns the rest of the string (shorter than `l`). -/
def tryTpl (name : Str) : (l : Str) → Option { r : Str // r.length < l.length }
  | '\x7b' :: '\x7b' :: rest =>
    if name.isPrefixOf (rest.dropWhile jsIsSpace) then
      match h : ((rest.dropWhile jsIsSpace).drop name.length).dropWhile jsIsSpace with
      | '\x7d' :: '\x7d' :: r3 =>
        some ⟨r3, by
          have h1 : (((rest.dropWhile jsIsSpace).drop name.length).dropWhile
              jsIsSpace).length ≤ ((rest.dropWhile jsIsSpace).drop name.length).length :=
            (List.dropWhile_sublist jsIsSpace).length_le
          rw [h] at h1
          have h2 : (rest.dropWhile jsIsSpace).length ≤ rest.length :=
            (List.dropWhile_sublist jsIsSpace).length_le
          simp only [List.length_cons, List.length_drop] at h1 h2 ⊢
          omega⟩
      | _ => none
    else none
  | _ => none

/-- Global replacement of the template token `\x7b\x7b\s*<name>\s*\x7d\x7d`
by `value` (the `BRANCH_TPL_RE` / `PR_TPL_RE` replaces). -/
def replaceTplAll (name value : Str) : Str → Str
  | [] => []
  | c :: rest =>
    match tryTpl name (c :: rest) with
    | some after => value ++ replaceTplAll name value after.1
    | none => c :: replaceTplAll name value rest
termination_by s => s.length
decreasing_by
  · exact after.2
  · simp only [List.length_cons]
    omega

/-- `templateAliasDomains(domains)` reading the templating context from the
environment. -/
def templateAliasDomains (domains : List Str) (env : VercelEnv) : List Str :=
  if domains = [] then []
  else
    let prNumber := env.GITHUB_PR_NUMBER.getD []
    let isPr := prNumber ≠ []
    let ref := jsOr env.GITHUB_HEAD_REF env.GITHUB_REF
    let branch := slugify (replaceFirst "refs/heads/".toList [] ref)
    ((domains.map (fun d => replaceTplAll "BRANCH".toList branch d)).map
        (fun d => if isPr then replaceTplAll "PR_NUMBER".toList prNumber d else d)).filter
      (fun d => !strIncludes d "\x7b\x7b".toList)

/-- Tokenisation performed by `raw.match(TOKEN_SPLIT_RE)` with
`TOKEN_SPLIT_RE = quoted-or-nonspace`: a quoted token keeps its quotes; a
quote with no closing mate falls back to the non-space-run alternative. -/
def tokenize : Str → List Str
  | [] => []
  | c :: rest =>
    if jsIsSpace c then tokenize rest
    else if c = '\'' then
      if (rest.dropWhile (· ≠ '\'')) = [] then
        (c :: rest.takeWhile (fun x => !jsIsSpace x)) ::
          tokenize (rest.dropWhile (fun x => !jsIsSpace x))
      else
        ('\'' :: rest.takeWhile (· ≠ '\'') ++ ['\'']) ::
          tokenize (rest.dropWhile (· ≠ '\'')).tail
    else if c = '"' then
      if (rest.dropWhile (· ≠ '"')) = [] then
        (c :: rest.takeWhile (fun x => !jsIsSpace x)) ::
          tokenize (rest.dropWhile (fun x => !jsIsSpace x))
      else
        ('"' :: rest.takeWhile (· ≠ '"') ++ ['"']) ::
          tokenize (rest.dropWhile (· ≠ '"')).tail
    else
      (c :: rest.takeWhile (fun x => !jsIsSpace x)) ::
        tokenize (rest.dropWhile (fun x => !jsIsSpace x))
termination_by s => s.length
decreasing_by
  all_goals simp only [List.length_cons]
  · omega
  · have h1 : (rest.dropWhile (fun x => !jsIsSpace x)).length ≤ rest.length :=
      (List.dropWhile_sublist (fun x => !jsIsSpace x)).length_le
    omega
  · have h1 : (rest.dropWhile (· ≠ '\'')).length ≤ rest.length :=
      (List.dropWhile_sublist (· ≠ '\'')).length_le
    have h2 := List.length_tail (rest.dropWhile (· ≠ '\''))
    omega
  · have h1 : (rest.dropWhile (fun x => !jsIsSpace x)).length ≤ rest.length :=
      (List.dropWhile_sublist (fun x => !jsIsSpace x)).length_le
    omega
  · have h1 : (rest.dropWhile (· ≠ '"')).length ≤ rest.length :=
      (List.dropWhile_sublist (· ≠ '"')).length_le
    have h2 := List.length_tail (rest.dropWhile (· ≠ '"'))
    omega
  · have h1 : (rest.dropWhile (fun x => !jsIsSpace x)).length ≤ rest.length :=
      (List.dropWhile_sublist (fun x => !jsIsSpace x)).length_le
    omega

/-- The `/^"|"$/g` strip applied to a parsed meta value. -/
def stripEdgeQuotes (v : Str) : Str :=
  let v1 := match v with
    | '"' :: t => t
    | _ => v
  match v1.getLast? with
  | some '"' => v1.dropLast
  | _ => v1

/-- Split one `key=value` token: `none` when there is no `=` or the key is
empty (`eq > 0` in the source). -/
def kvSplit (kv : Str) : Option (Str × Str) :=
  match jsIndexOf "=".toList kv with
  | some e =>
    if e > 0 then some (kv.take e, stripEdgeQuotes (kv.drop (e + 1))) else none
  | none => none

/-- JavaScript object property assignment `m[k] = v` on an insertion-ordered
record. -/
def setKey : List (Str × Str) → Str → Str → List (Str × Str)
  | [], k, v => [(k, v)]
  | (k0, v0) :: rest, k, v =>
    if k0 = k then (k0, v) :: rest else (k0, v0) :: setKey rest k v

/-- JavaScript property read `m[k]`. -/
def lookupA : List (Str × Str) → Str → Option Str
  | [], _ => none
  | (k0, v0) :: rest, k => if k0 = k then some v0 else lookupA rest k

/-- JavaScript object spread `\x7b ...base, ...extra \x7d`: sequential
property assignment of `extra` over `base`. -/
def jsSpread (base extra : List (Str × Str)) : List (Str × Str) :=
  extra.foldl (fun m kv => setKey m kv.1 kv.2) base

/-- The scanning loop of `parseMetaArgs`: a `-m`/`--meta` flag consumes the
following token as `key=value` (a flag in last position reads `kv = ''`,
whose split fails, and ends the loop). -/
def parseMetaLoop : List Str → List (Str × Str) → List (Str × Str)
  | [], m => m
  | [_], m => m
  | t :: kv :: rest, m =>
    if t = "-m".toList ∨ t = "--meta".toList then
      parseMetaLoop rest
        (match kvSplit kv with
         | some (k, v) => setKey m k v
         | none => m)
    else parseMetaLoop (kv :: rest) m

/-- `parseMetaArgs(raw)`. -/
def parseMetaArgs (raw : Option Str) : List (Str × Str) :=
  match raw with
  | none => []
  | some r => if r = [] then [] else parseMetaLoop (tokenize r) []

/-- Options accepted by `deployToVercel`. -/
structure VercelOptions where
  token : Str
  projectId : Str
  orgId : Str
  workingDirectory : Str
  framework : Option Str := none
  target : Option Str := none
  aliasDomain : Option Str := none
  aliasBranch : Option Str := none
  aliasDomains : List Str := []
  vercelArgs : Option Str := none
  vercelScope : Option Str := none

/-- The target sent in the deploy request body. -/
def vercelDeployTarget (o : VercelOptions) (env : VercelEnv) : Str :=
  match o.target with
  | some t => if trimStr t ≠ [] then t else resolveTarget env
  | none => resolveTarget env

/-- The `meta` object of the v13 deployment request: explicitly constructed
metadata (PII-free commit/PR data) spread-merged with the parsed
`-m`/`--meta` pairs, the parsed pairs last. -/
def vercelMeta (o : VercelOptions) (env : VercelEnv) : List (Str × Str) :=
  let branch := getBranch env
  let repo := env.GITHUB_REPOSITORY.getD []
  let owner := env.GITHUB_REPOSITORY_OWNER.getD []
  let sha := env.GITHUB_SHA.getD []
  let commitMessage := env.GITHUB_COMMIT_MESSAGE.getD []
  let commitAuthorName := env.GITHUB_COMMIT_AUTHOR_NAME.getD []
  let commitAuthorLogin := jsOr env.GITHUB_COMMIT_AUTHOR_LOGIN env.GITHUB_ACTOR
  let prNumber := env.GITHUB_PR_NUMBER.getD []
  let prHeadRef := jsOr env.GITHUB_PR_HEAD_REF env.GITHUB_HEAD_REF
  let prBaseRef := jsOr env.GITHUB_PR_BASE_REF env.GITHUB_BASE_REF
  let includePrMeta := trimStr prNumber ≠ []
  let base :=
    [("githubCommitRef".toList, branch),
     ("githubCommitSha".toList, sha),
     ("githubRepo".toList, (splitOnChar '/' repo).getD 1 []),
     ("githubOrg".toList, owner),
     ("githubCommitMessage".toList, commitMessage),
     ("githubCommitAuthorName".toList, commitAuthorName),
     ("githubCommitAuthorLogin".toList, commitAuthorLogin),
     ("source".toList, "github".toList)]
    ++ (match o.vercelScope with
        | some sc => if sc ≠ [] then [("githubScope".toList, sc)] else []
        | none => [])
    ++ (if includePrMeta then
          [("githubPrNumber".toList, prNumber)]
          ++ (if prHeadRef ≠ [] then [("githubPrHeadRef".toList, prHeadRef)] else [])
          ++ (if prBaseRef ≠ [] then [("githubPrBaseRef".toList, prBaseRef)] else [])
        else [])
  jsSpread base (parseMetaArgs o.vercelArgs)

/-- The v13 deployment request body (file upload is I/O and carried
opaquely by the caller; it does not influence any field below). -/
structure DeployRequestBody where
  name : Str
  project : Str
  target : Str
  meta : List (Str × Str)
  framework : Str
deriving DecidableEq

/-- The request body sent by `deployToVercel`. -/
def deployRequestBody (o : VercelOptions) (env : VercelEnv) : DeployRequestBody :=
  { name := "c15t".toList
    project := o.projectId
    target := vercelDeployTarget o env
    meta := vercelMeta o env
    framework :=
      match o.framework with
      | some f => if f ≠ [] then f else "nextjs".toList
      | none => "nextjs".toList }

/-- The parsed JSON of a successful v13 deploy response. -/
structure DeployJson where
  url : Option Str := none
  id : Option Str := none
deriving DecidableEq

/-- The best-effort alias assignment loop: `aliasOk i` is the oracle for
whether the `i`-th alias POST succeeds; a failure is swallowed and the
loop continues; the first successful dot-containing alias becomes the
canonical URL. -/
def aliasLoop (aliasOk : Nat → Bool) : List Str → Nat → Str → Bool → Str
  | [], _, url, _ => url
  | d :: rest, i, url, canonicalSet =>
    if aliasOk i then
      if !canonicalSet && strIncludes d ".".toList then
        aliasLoop aliasOk rest (i + 1) ("https://".toList ++ d) true
      else aliasLoop aliasOk rest (i + 1) url canonicalSet
    else aliasLoop aliasOk rest (i + 1) url canonicalSet

/-- The full alias candidate list: optional single `aliasDomain` first,
then the templated `aliasDomains`. -/
def vercelAliases (o : VercelOptions) (env : VercelEnv) : List Str :=
  (match o.aliasDomain with
   | some d => if d ≠ [] then [d] else []
   | none => []) ++ templateAliasDomains o.aliasDomains env

/-- The result of `deployToVercel`. -/
structure VercelResult where
  url : Str
  id : Option Str
deriving DecidableEq

/-- `deployToVercel(options)`: the deploy POST outcome is the `deployResp`
oracle (`.error` models a non-2xx response or request failure, rethrown);
a 2xx response without a URL is an error; alias assignment runs only when
candidates exist, an alias branch is configured and matches, and the
response carried an id. -/
def deployToVercel (o : VercelOptions) (env : VercelEnv)
    (deployResp : Except Str DeployJson) (aliasOk : Nat → Bool) :
    Except Str VercelResult :=
  match deployResp with
  | .error e => .error e
  | .ok json =>
    let url0 : Str :=
      match json.url with
      | some u => if u ≠ [] then "https://".toList ++ u else []
      | none => []
    if url0 = [] then .error "Vercel did not return a deployment URL.".toList
    else
      let allAliases := vercelAliases o env
      let aliasBranch := o.aliasBranch.getD []
      let idTruthy : Bool := match json.id with
        | some i => i ≠ []
        | none => false
      let url :=
        if allAliases ≠ [] ∧ aliasBranch ≠ [] ∧ getBranch env = aliasBranch ∧
            idTruthy = true then
          aliasLoop aliasOk allAliases 0 url0 false
        else url0
      .ok { url := url, id := json.id }

/- ===================== steps/deployment.ts (part_002) ===================== -/

/-- The parts of `github.context` read by `resolveBranch`. -/
structure ActionCtx where
  ref : Option Str
  headRef : Option Str

/-- `resolveBranch()`. -/
def resolveBranch (actx : ActionCtx) : Str :=
  let ref := actx.ref.getD []
  let headRef := actx.headRef.getD []
  if headRef ≠ [] then headRef
  else if "refs/heads/".toList.isPrefixOf ref then
    replaceFirst "refs/heads/".toList [] ref
  else ref

/-- `computeEnvironmentName(target, branch)`. -/
def computeEnvironmentName (target : Option Str) (branch : Str) : Str :=
  if target = some "production".toList then "production".toList
  else if branch = "main".toList then "production".toList
  else "preview/".toList ++ branch

/-- The action inputs consumed by `performVercelDeployment` (plain string
inputs default to `''`). -/
structure ActionInputs where
  vercelToken : Str
  vercelProjectId : Str
  vercelOrgId : Str
  setupDocs : Bool
  deployOnPushBranches : Str
  deployOnPrBaseBranches : Str
  onlyIfChanged : Bool
  changeGlobs : List Str
  checkTemplateChanges : Bool
  vercelTarget : Str
  vercelWorkingDirectory : Str
  vercelFramework : Str
  canaryAlias : Str
  aliasOnBranch : Str
  aliasDomains : List Str
  vercelArgs : Str
  vercelScope : Str

/-- Observable side effects of one `performVercelDeployment` run. -/
inductive DeployEffect where
  | docsSetup
  | createDeployment (environmentName : Str)
  | setDeployStatus (state : Str)
  | vercelAttempt (n : Nat)
  | outputUrl (url : Str)
  | setFailed (msg : Str)
deriving DecidableEq

/-- `performVercelDeployment(octokit)`: returns the deployment URL (or
`undefined`) together with the trace of effects performed.  Oracles:
`docsOk` is whether `setupDocsWithScript` succeeds, `prFiles`/`compareFiles`
feed change detection, `ghDeploymentId` the (best-effort) GitHub deployment
record id, and `deployResps`/`aliasOks` the per-attempt Vercel responses.
`env` is the environment as seen by `deployToVercel` (i.e. after the
best-effort `ensureGitMetaEnv` backfill). -/
def performVercelDeployment (inp : ActionInputs) (ctx : GhContext)
    (actx : ActionCtx) (env : VercelEnv) (docsOk : Bool)
    (prFiles : Except Unit (List Str))
    (compareFiles : Str → Except Unit (List Str))
    (ghDeploymentId : Option Nat)
    (deployResps : Nat → Except Str DeployJson)
    (aliasOks : Nat → Nat → Bool) :
    Option Str × List DeployEffect :=
  if inp.vercelToken = [] ∨ inp.vercelProjectId = [] ∨ inp.vercelOrgId = [] then
    (none, [])
  else if inp.setupDocs ∧ docsOk = false then
    (none, [.docsSetup, .setFailed "docs setup failed".toList])
  else
    let eff0 : List DeployEffect := if inp.setupDocs then [.docsSetup] else []
    if shouldDeployByPolicy ctx (some inp.deployOnPushBranches)
        (some inp.deployOnPrBaseBranches) = false then
      (none, eff0)
    else
      let globs :=
        if inp.changeGlobs ≠ [] then inp.changeGlobs
        else ["docs/**".toList, "packages/*/src/**".toList,
          "packages/*/package.json".toList]
      let relevant :=
        if inp.onlyIfChanged then
          (detectRelevantChanges ctx prFiles compareFiles globs).1
        else true
      if inp.onlyIfChanged ∧ relevant = false ∧ inp.checkTemplateChanges = false then
        (none, eff0)
      else
        let branch := resolveBranch actx
        let targetHint : Str :=
          if inp.vercelTarget ≠ [] ∧ trimStr inp.vercelTarget ≠ [] then
            inp.vercelTarget
          else if branch = "main".toList then "production".toList
          else "staging".toList
        let environmentName := computeEnvironmentName (some targetHint) branch
        let eff1 := eff0 ++ [.createDeployment environmentName]
        let eff2 := eff1 ++
          (match ghDeploymentId with
           | some _ => [.setDeployStatus "in_progress".toList]
           | none => [])
        let o : VercelOptions :=
          { token := inp.vercelToken
            projectId := inp.vercelProjectId
            orgId := inp.vercelOrgId
            workingDirectory := inp.vercelWorkingDirectory
            framework := some inp.vercelFramework
            target := some targetHint
            aliasDomain := if inp.canaryAlias ≠ [] then some inp.canaryAlias else none
            aliasBranch := if inp.aliasOnBranch ≠ [] then some inp.aliasOnBranch else none
            aliasDomains := inp.aliasDomains
            vercelArgs := some inp.vercelArgs
            vercelScope := some inp.vercelScope }
        let retried := executeWithRetry
          (fun attempt =>
            (deployToVercel o env (deployResps attempt) (aliasOks attempt)).map
              (fun r => r.url))
          ErrorHandler.handleVercel 3
        let attempts := (List.range retried.2).map
          (fun n => DeployEffect.vercelAttempt (n + 1))
        match retried.1 with
        | .ok url =>
          (some url,
           eff2 ++ attempts ++ [.outputUrl url] ++
             (match ghDeploymentId with
              | some _ => [.setDeployStatus "success".toList]
              | none => []))
        | .error _ =>
          (none,
           eff2 ++ attempts ++ [.setFailed "vercel deployment failed".toList] ++
             (match ghDeploymentId with
              | some _ => [.setDeployStatus "failure".toList]
              | none => []))

/- ===================== spec-side comparison definitions ===================== -/

/-- The branch as the spec words it for the push policy gate: the ref with
the `refs/heads/` *prefix* stripped (unchanged when the ref does not start
with it).  Stated for comparison against `strippedPushRef`. -/
def specStrippedBranch (ref : Str) : Str :=
  if "refs/heads/".toList.isPrefixOf ref then ref.drop "refs/heads/".toList.length
  else ref

/-- The alias the spec designates as canonical: the first candidate (in
candidate order, counting from index `i`) that both contains a `.` and
whose assignment succeeds. -/
def firstSuccessfulDotAlias (ok : Nat → Bool) : List Str → Nat → Option Str
  | [], _ => none
  | d :: rest, i =>
    if ok i && strIncludes d ".".toList then some d
    else firstSuccessfulDotAlias ok rest (i + 1)

/- ===================== helper lemmas: retry loop ===================== -/

/-- One retry step: a successful attempt within bounds returns immediately. -/
theorem retryAux_ok {E A : Type} (op : Nat → Except E A)
    (cls : E → ActionableError) (max attempt : Nat)
    (last : Option ActionableError) (a : A)
    (h : attempt ≤ max) (ha : op attempt = .ok a) :
    retryAux op cls max attempt last = (.ok a, attempt) := by
  unfold retryAux
  rw [dif_pos h, ha]

/-- One retry step: a retryable failure before the final attempt loops. -/
theorem retryAux_retry {E A : Type} (op : Nat → Except E A)
    (cls : E → ActionableError) (max attempt : Nat)
    (last : Option ActionableError) (e : E)
    (h : attempt ≤ max) (ha : op attempt = .error e)
    (hr : (cls e).retryable = true) (hne : attempt ≠ max) :
    retryAux op cls max attempt last =
      retryAux op cls max (attempt + 1) (some (cls e)) := by
  conv_lhs => unfold retryAux
  rw [dif_pos h, ha]
  simp only [dif_pos (And.intro hr hne)]

/-- One retry step: a non-retryable or final failure rethrows the original
error. -/
theorem retryAux_fatal {E A : Type} (op : Nat → Except E A)
    (cls : E → ActionableError) (max attempt : Nat)
    (last : Option ActionableError) (e : E)
    (h : attempt ≤ max) (ha : op attempt = .error e)
    (hstop : ¬((cls e).retryable = true ∧ attempt ≠ max)) :
    retryAux op cls max attempt last = (.error (.original e), attempt) := by
  unfold retryAux
  rw [dif_pos h, ha]
  simp only [dif_neg hstop]

/-- C3: with `maxRetries = 3`, an operation failing twice with
retryable-classified errors and then succeeding returns the success value
after exactly 3 attempts; and an operation whose first failure is
classified non-retryable is attempted exactly once, its original error
propagated. -/
theorem executeWithRetry_c3 {E A : Type} (op : Nat → Except E A)
    (cls : E → ActionableError) (e1 e2 : E) (a : A)
    (h1 : op 1 = .error e1) (h2 : op 2 = .error e2) (h3 : op 3 = .ok a)
    (r1 : (cls e1).retryable = true) (r2 : (cls e2).retryable = true) :
    executeWithRetry op cls 3 = (.ok a, 3) ∧
    ∀ (op2 : Nat → Except E A) (e : E), op2 1 = .error e →
      (cls e).retryable = false →
      executeWithRetry op2 cls 3 = (.error (.original e), 1) := by
  constructor
  · unfold executeWithRetry
    rw [retryAux_retry op cls 3 1 none e1 (by omega) h1 r1 (by omega)]
    rw [retryAux_retry op cls 3 2 _ e2 (by omega) h2 r2 (by omega)]
    exact retryAux_ok op cls 3 3 _ a (by omega) h3
  · intro op2 e he hr
    unfold executeWithRetry
    exact retryAux_fatal op2 cls 3 1 none e (by omega) he
      (by simp [hr])

/-- Witness for C3 at a concrete operation and classifier. -/
theorem executeWithRetry_c3_witness :
    executeWithRetry (fun n => if n = 3 then .ok 7 else .error true)
      (fun b => { type := .unknownType, message := "e".toList,
                  suggestion := [], actionItems := [], retryable := b }) 3 =
      (.ok 7, 3) ∧
    executeWithRetry (fun _ => (.error false : Except Bool Nat))
      (fun b => { type := .unknownType, message := "e".toList,
                  suggestion := [], actionItems := [], retryable := b }) 3 =
      (.error (.original false), 1) := by
  have h := executeWithRetry_c3
    (fun n => if n = 3 then (.ok 7 : Except Bool Nat) else .error true)
    (fun b => { type := .unknownType, message := "e".toList,
                suggestion := [], actionItems := [], retryable := b })
    true true 7 rfl rfl rfl rfl rfl
  exact ⟨h.1, h.2 (fun _ => .error false) false rfl rfl⟩

/- ===================== C5: glob validation ===================== -/

/-- C5 counterexample: an over-long pattern makes `globToRegex` throw a
plain error, but `minimatch` catches it and returns the match result
`false` — no configuration error reaches the caller. -/
theorem minimatch_c5_counterexample :
    globToRegex (List.replicate 1001 'a') = .error .tooLong ∧
    minimatch "docs/a.md".toList (List.replicate 1001 'a') = false := by
  constructor
  · unfold globToRegex
    simp
  · unfold minimatch globToRegex
    simp

/-- C5 (amended): a pattern longer than 1000 characters or with more than
20 `*` wildcard characters makes `globToRegex` fail with a plain
validation error; `minimatch` catches that throw and reports a non-match
(`false`) instead of propagating any error. -/
theorem globToRegex_c5 (path glob : Str)
    (h : glob.length > 1000 ∨ countStars glob > 20) :
    (∃ e, globToRegex glob = .error e) ∧ minimatch path glob = false := by
  unfold minimatch globToRegex
  by_cases h1 : glob.length > 1000
  · simp [h1]
  · have h2 : countStars glob > 20 := by tauto
    simp [h1, h2]

/-- Witness for C5 at a concrete over-long pattern. -/
theorem globToRegex_c5_witness :
    ((List.replicate 1001 'b' : Str).length > 1000 ∨
      countStars (List.replicate 1001 'b') > 20) ∧
    ((∃ e, globToRegex (List.replicate 1001 'b') = .error e) ∧
      minimatch "x".toList (List.replicate 1001 'b') = false) := by
  refine ⟨Or.inl (by simp), ?_⟩
  exact globToRegex_c5 "x".toList (List.replicate 1001 'b') (Or.inl (by simp))

/- ===================== C6: change detection fails open ===================== -/

/-- C6: any failure of the change-set fetch makes `detectRelevantChanges`
return `true` (deploy) and log a warning, for both the PR file-list fetch
and the push compare fetch. -/
theorem detectRelevantChanges_c6 (ctx : GhContext) (globs : List Str)
    (prFiles : Except Unit (List Str))
    (compareFiles : Str → Except Unit (List Str)) :
    (isPrEvent ctx = true → ctx.prNumber.getD 0 ≠ 0 → prFiles = .error () →
      detectRelevantChanges ctx prFiles compareFiles globs = (true, true)) ∧
    (isPrEvent ctx = false → (∀ b, compareFiles b = .error ()) →
      detectRelevantChanges ctx prFiles compareFiles globs = (true, true)) := by
  constructor
  · intro hpr hnum herr
    unfold detectRelevantChanges
    simp [hpr, hnum, herr]
  · intro hpr herr
    unfold detectRelevantChanges
    simp [hpr, herr]

/-- Witness for C6: a push event whose compare fetch always fails still
reports the changes as relevant, with a warning. -/
theorem detectRelevantChanges_c6_witness :
    detectRelevantChanges ⟨"push".toList, none, none, none, none, "abc".toList⟩
      (.ok []) (fun _ => .error ()) ["docs/**".toList] = (true, true) := by
  exact (detectRelevantChanges_c6 ⟨"push".toList, none, none, none, none,
    "abc".toList⟩ ["docs/**".toList] (.ok []) (fun _ => .error ())).2
    (by decide) (fun _ => rfl)

/- ===================== C9: empty allowlist input uses defaults ===================== -/

/-- C9: an undefined or empty-string allowlist input falls back to the
default `['main', 'canary']` allowlist, so an empty input cannot disable
deployment on the default branches; in particular a push whose stripped
branch is `main` still deploys. -/
theorem shouldDeployByPolicy_c9 (ctx : GhContext) (pushCsv prCsv : Option Str)
    (hp : pushCsv = none ∨ pushCsv = some [])
    (hq : prCsv = none ∨ prCsv = some []) :
    shouldDeployByPolicy ctx pushCsv prCsv =
      (if isPrEvent ctx then
        (["main".toList, "canary".toList] : List Str).contains
          (ctx.prBaseRef.getD [])
      else
        (["main".toList, "canary".toList] : List Str).contains
          (strippedPushRef ctx.ref)) ∧
    (isPrEvent ctx = false → strippedPushRef ctx.ref = "main".toList →
      shouldDeployByPolicy ctx pushCsv prCsv = true) := by
  have hps : parseCsv pushCsv ["main".toList, "canary".toList] =
      ["main".toList, "canary".toList] := by
    rcases hp with h | h <;> simp [h, parseCsv]
  have hqs : parseCsv prCsv ["main".toList, "canary".toList] =
      ["main".toList, "canary".toList] := by
    rcases hq with h | h <;> simp [h, parseCsv]
  constructor
  · unfold shouldDeployByPolicy
    rw [hps, hqs]
    by_cases hpr : isPrEvent ctx <;> simp [hpr]
  · intro h1 h2
    unfold shouldDeployByPolicy
    rw [hps, h2]
    simp [h1]

/-- Witness for C9: empty push allowlist input, push to `main`. -/
theorem shouldDeployByPolicy_c9_witness :
    shouldDeployByPolicy
      ⟨"push".toList, some "refs/heads/main".toList, none, none, none, []⟩
      (some []) none = true := by
  exact (shouldDeployByPolicy_c9
    ⟨"push".toList, some "refs/heads/main".toList, none, none, none, []⟩
    (some []) none (Or.inr rfl) (Or.inl rfl)).2 (by decide) (by decide)

/- ===================== C10: missing Vercel credentials skip ===================== -/

/-- C10: when any of the Vercel token, project id, or org id inputs is
empty, `performVercelDeployment` returns `undefined` immediately with no
observable effect: no docs setup, no deployment record, no status, no
deploy attempt, no failure. -/
theorem performVercelDeployment_c10 (inp : ActionInputs) (ctx : GhContext)
    (actx : ActionCtx) (env : VercelEnv) (docsOk : Bool)
    (prFiles : Except Unit (List Str))
    (compareFiles : Str → Except Unit (List Str)) (ghId : Option Nat)
    (deployResps : Nat → Except Str DeployJson)
    (aliasOks : Nat → Nat → Bool)
    (h : inp.vercelToken = [] ∨ inp.vercelProjectId = [] ∨
      inp.vercelOrgId = []) :
    performVercelDeployment inp ctx actx env docsOk prFiles compareFiles ghId
      deployResps aliasOks = (none, []) := by
  unfold performVercelDeployment
  rw [if_pos h]

/-- Witness for C10 at a concrete run with an empty token. -/
theorem performVercelDeployment_c10_witness :
    performVercelDeployment
      ⟨[], "p".toList, "o".toList, false, [], [], false, [], false, [], [],
        [], [], [], [], [], []⟩
      ⟨"push".toList, none, none, none, none, []⟩ ⟨none, none⟩ {} true
      (.ok []) (fun _ => .ok []) none (fun _ => .error []) (fun _ _ => true) =
      (none, []) := by
  exact performVercelDeployment_c10 _ _ _ _ _ _ _ _ _ _ (Or.inl rfl)

/- ===================== C4: policy gate branch semantics ===================== -/

/-- C4 counterexample: for the push ref `refs/tags/refs/heads/x` (a tag
named `refs/heads/x`) and allowlist input `refs/tags/x`, the code deploys
(it removes the *first occurrence* of `refs/heads/` anywhere in the ref),
while the ref with the `refs/heads/` *prefix* stripped is not in the
allowlist, so the claim predicts no deploy. -/
theorem shouldDeployByPolicy_c4_counterexample :
    shouldDeployByPolicy
      ⟨"push".toList, some "refs/tags/refs/heads/x".toList, none, none, none, []⟩
      (some "refs/tags/x".toList) none = true ∧
    (parseCsv (some "refs/tags/x".toList)
      ["main".toList, "canary".toList]).contains
      (specStrippedBranch "refs/tags/refs/heads/x".toList) = false := by
  decide

/-- C4 (amended): for every push event the gate deploys iff the ref with
the *first occurrence* of `refs/heads/` removed is in the push allowlist
(for refs that start with `refs/heads/` this is exactly the prefix strip);
for every pull-request event it deploys iff the PR base branch is in the
PR-base allowlist. -/
theorem shouldDeployByPolicy_c4 (ctx : GhContext) (pushCsv prCsv : Option Str) :
    (ctx.eventName = "push".toList →
      (shouldDeployByPolicy ctx pushCsv prCsv = true ↔
        (parseCsv pushCsv ["main".toList, "canary".toList]).contains
          (strippedPushRef ctx.ref) = true)) ∧
    (isPrEvent ctx = true →
      (shouldDeployByPolicy ctx pushCsv prCsv = true ↔
        (parseCsv prCsv ["main".toList, "canary".toList]).contains
          (ctx.prBaseRef.getD []) = true)) := by
  constructor
  · intro h
    have hpr : isPrEvent ctx = false := by
      unfold isPrEvent
      rw [h]
      decide
    unfold shouldDeployByPolicy
    simp [hpr]
  · intro h
    unfold shouldDeployByPolicy
    simp [h]

/-- Witness for C4 at a concrete push event. -/
theorem shouldDeployByPolicy_c4_witness :
    (shouldDeployByPolicy
      ⟨"push".toList, some "refs/heads/canary".toList, none, none, none, []⟩
      none none = true ↔
    (parseCsv none ["main".toList, "canary".toList]).contains
      (strippedPushRef (some "refs/heads/canary".toList)) = true) ∧
    (shouldDeployByPolicy
      ⟨"pull_request".toList, none, some "main".toList, none, none, []⟩
      none none = true ↔
    (parseCsv none ["main".toList, "canary".toList]).contains
      ((some "main".toList : Option Str).getD []) = true) := by
  exact ⟨(shouldDeployByPolicy_c4
      ⟨"push".toList, some "refs/heads/canary".toList, none, none, none, []⟩
      none none).1 rfl,
    (shouldDeployByPolicy_c4
      ⟨"pull_request".toList, none, some "main".toList, none, none, []⟩
      none none).2 (by decide)⟩

/- ===================== C7: canonical alias selection ===================== -/

/-- Once the canonical URL is set, later alias assignments never change
it. -/
theorem aliasLoop_done (ok : Nat → Bool) :
    ∀ (ds : List Str) (i : Nat) (url : Str), aliasLoop ok ds i url true = url
  | [], _, _ => rfl
  | d :: rest, i, url => by
    unfold aliasLoop
    by_cases h : ok i <;> simp [h, aliasLoop_done ok rest (i + 1) url]

/-- The alias loop sets the canonical URL to the first successfully
assigned dot-containing candidate, and leaves the URL alone when there is
none; failed assignments are skipped without aborting the loop. -/
theorem aliasLoop_firstSuccess (ok : Nat → Bool) :
    ∀ (ds : List Str) (i : Nat) (url : Str),
      aliasLoop ok ds i url false =
        (match firstSuccessfulDotAlias ok ds i with
         | some d => "https://".toList ++ d
         | none => url)
  | [], _, _ => rfl
  | d :: rest, i, url => by
    unfold aliasLoop firstSuccessfulDotAlias
    by_cases hok : ok i
    · by_cases hdot : strIncludes d ['.']
      · simp [hok, hdot, aliasLoop_done ok rest (i + 1)]
      · simp [hok, hdot, aliasLoop_firstSuccess ok rest (i + 1) url]
    · simp [hok, aliasLoop_firstSuccess ok rest (i + 1) url]

/-- C7: when alias candidates are configured, the alias branch matches, and
the deploy response carries a URL and an id, the returned URL is
`https://` followed by the first candidate (in candidate order) that both
contains a `.` and is successfully assigned — overriding the default
deployment URL; earlier failed assignments neither abort the loop nor
become canonical, and with no successful dot-containing candidate the
default URL is kept. -/
theorem deployToVercel_c7 (o : VercelOptions) (env : VercelEnv)
    (json : DeployJson) (aliasOk : Nat → Bool) (u : Str)
    (hurl : json.url = some u) (hu : u ≠ [])
    (hid : (match json.id with | some i => i ≠ [] | none => false) = true)
    (hne : vercelAliases o env ≠ []) (hab : o.aliasBranch.getD [] ≠ [])
    (hbr : getBranch env = o.aliasBranch.getD []) :
    (∀ d, firstSuccessfulDotAlias aliasOk (vercelAliases o env) 0 = some d →
      deployToVercel o env (.ok json) aliasOk =
        .ok ⟨"https://".toList ++ d, json.id⟩) ∧
    (firstSuccessfulDotAlias aliasOk (vercelAliases o env) 0 = none →
      deployToVercel o env (.ok json) aliasOk =
        .ok ⟨"https://".toList ++ u, json.id⟩) := by
  have hmain : deployToVercel o env (.ok json) aliasOk =
      .ok ⟨(match firstSuccessfulDotAlias aliasOk (vercelAliases o env) 0 with
            | some d => "https://".toList ++ d
            | none => "https://".toList ++ u), json.id⟩ := by
    unfold deployToVercel
    dsimp only
    rw [hurl]
    dsimp only
    rw [if_pos hu, if_neg (by simp), if_pos ⟨hne, hab, hbr, hid⟩,
      aliasLoop_firstSuccess]
  constructor
  · intro d hd
    rw [hmain, hd]
  · intro hd
    rw [hmain, hd]

/-- Witness for C7: candidates `[x.example.com, y.example.com]`, the
first assignment fails, the second succeeds and becomes canonical. -/
theorem deployToVercel_c7_witness :
    deployToVercel
      { token := "t".toList, projectId := "p".toList, orgId := "o".toList,
        workingDirectory := ".".toList, target := some "staging".toList,
        aliasBranch := some "canary".toList,
        aliasDomains := ["x.example.com".toList, "y.example.com".toList] }
      { GITHUB_HEAD_REF := some "canary".toList }
      (.ok ⟨some "dep.vercel.app".toList, some "dpl1".toList⟩)
      (fun i => i != 0) =
      .ok ⟨"https://".toList ++ "y.example.com".toList,
        some "dpl1".toList⟩ := by
  have hv : vercelAliases
      { token := "t".toList, projectId := "p".toList, orgId := "o".toList,
        workingDirectory := ".".toList, target := some "staging".toList,
        aliasBranch := some "canary".toList,
        aliasDomains := ["x.example.com".toList, "y.example.com".toList] }
      { GITHUB_HEAD_REF := some "canary".toList } =
      ["x.example.com".toList, "y.example.com".toList] := by
    simp [vercelAliases, templateAliasDomains, replaceTplAll, tryTpl, jsOr,
      replaceFirst, jsIndexOf, slugify, trimStr, lowerStr, replaceRuns,
      collapseDashes, jsIsSpace, strIncludes]
  exact (deployToVercel_c7 _ _ _ _ "dep.vercel.app".toList rfl (by decide)
    (by decide) (by rw [hv]; decide) (by decide) (by decide)).1
    "y.example.com".toList (by rw [hv]; decide)

/- ===================== C8: parsed metadata merged last ===================== -/

/-- Setting a key makes it readable. -/
theorem lookupA_setKey_self (k : Str) (v : Str) :
    ∀ m : List (Str × Str), lookupA (setKey m k v) k = some v
  | [] => by simp [setKey, lookupA]
  | (k0, v0) :: rest => by
    by_cases h : k0 = k <;>
      simp [setKey, lookupA, h, lookupA_setKey_self k v rest]

/-- Setting one key leaves other keys unchanged. -/
theorem lookupA_setKey_ne (k v : Str) (k' : Str) (h : k ≠ k') :
    ∀ m : List (Str × Str), lookupA (setKey m k v) k' = lookupA m k'
  | [] => by simp [setKey, lookupA, h]
  | (k0, v0) :: rest => by
    by_cases h0 : k0 = k
    · subst h0
      simp [setKey, lookupA, h]
    · simp [setKey, lookupA, h0, lookupA_setKey_ne k v k' h rest]

/-- Key membership after a set. -/
theorem mem_keys_setKey (k v k' : Str) :
    ∀ m : List (Str × Str),
      (k' ∈ (setKey m k v).map Prod.fst ↔ k' ∈ m.map Prod.fst ∨ k' = k)
  | [] => by simp [setKey]
  | (k0, v0) :: rest => by
    by_cases h0 : k0 = k
    · subst h0
      by_cases h1 : k' = k0 <;> simp [setKey, h1]
    · simp [setKey, h0, mem_keys_setKey k v k' rest]
      tauto

/-- A set preserves distinctness of keys. -/
theorem nodup_keys_setKey (k v : Str) :
    ∀ m : List (Str × Str), (m.map Prod.fst).Nodup →
      ((setKey m k v).map Prod.fst).Nodup
  | [], _ => by simp [setKey]
  | (k0, v0) :: rest, h => by
    by_cases h0 : k0 = k
    · subst h0
      simpa [setKey] using h
    · simp only [List.map_cons, List.nodup_cons] at h
      simp only [setKey, if_neg h0, List.map_cons, List.nodup_cons]
      refine ⟨?_, nodup_keys_setKey k v rest h.2⟩
      rw [mem_keys_setKey]
      push_neg
      exact ⟨h.1, h0⟩

/-- The parse loop preserves distinctness of the accumulated keys. -/
theorem nodup_keys_parseMetaLoop :
    ∀ (toks : List Str) (m : List (Str × Str)), (m.map Prod.fst).Nodup →
      ((parseMetaLoop toks m).map Prod.fst).Nodup
  | [], _, h => h
  | [_], _, h => h
  | t :: kv :: rest, m, h => by
    unfold parseMetaLoop
    by_cases hf : (t = "-m".toList ∨ t = "--meta".toList)
    · rw [if_pos hf]
      match hkv : kvSplit kv with
      | some (k, v) =>
        exact nodup_keys_parseMetaLoop rest _ (nodup_keys_setKey k v m h)
      | none =>
        exact nodup_keys_parseMetaLoop rest m h
    · rw [if_neg hf]
      exact nodup_keys_parseMetaLoop (kv :: rest) m h

/-- The parsed `-m`/`--meta` map has distinct keys. -/
theorem nodup_keys_parseMetaArgs (raw : Option Str) :
    ((parseMetaArgs raw).map Prod.fst).Nodup := by
  unfold parseMetaArgs
  cases raw with
  | none => simp
  | some r =>
    dsimp only
    by_cases h : r = []
    · simp [h]
    · rw [if_neg h]
      exact nodup_keys_parseMetaLoop (tokenize r) [] (by simp)

/-- Folding assignments whose keys avoid `k` does not change `k`. -/
theorem lookupA_foldl_setKey_not_mem :
    ∀ (xs : List (Str × Str)) (base : List (Str × Str)) (k : Str),
      k ∉ xs.map Prod.fst →
      lookupA (xs.foldl (fun m kv => setKey m kv.1 kv.2) base) k =
        lookupA base k
  | [], _, _, _ => rfl
  | (k1, v1) :: t, base, k, h => by
    simp only [List.map_cons, List.mem_cons, not_or] at h
    rw [List.foldl_cons,
      lookupA_foldl_setKey_not_mem t (setKey base k1 v1) k h.2,
      lookupA_setKey_ne k1 v1 k (fun he => h.1 he.symm) base]

/-- A spread `\x7b ...base, ...extra \x7d` reads every key of a
distinct-keyed `extra` from `extra`. -/
theorem lookupA_jsSpread :
    ∀ (extra : List (Str × Str)) (base : List (Str × Str)) (k v : Str),
      (extra.map Prod.fst).Nodup → lookupA extra k = some v →
      lookupA (jsSpread base extra) k = some v
  | [], _, _, _, _, hl => by simp [lookupA] at hl
  | (k1, v1) :: t, base, k, v, hnd, hl => by
    simp only [List.map_cons, List.nodup_cons] at hnd
    by_cases h1 : k1 = k
    · subst h1
      have hv : v1 = v := by simpa [lookupA] using hl
      subst hv
      unfold jsSpread
      rw [List.foldl_cons, lookupA_foldl_setKey_not_mem t (setKey base k1 v1)
        k1 hnd.1, lookupA_setKey_self k1 v1 base]
    · simp only [lookupA, if_neg h1] at hl
      unfold jsSpread
      rw [List.foldl_cons]
      exact lookupA_jsSpread t (setKey base k1 v1) k v hnd.2 hl

/-- C8: the parsed `-m key=value` / `--meta key=value` pairs from the
extra-arguments string are merged into the deployment request metadata
last, so on any key collision with the explicitly constructed metadata the
parsed value is the one sent. -/
theorem deployRequestBody_c8 (o : VercelOptions) (env : VercelEnv) (k v : Str)
    (h : lookupA (parseMetaArgs o.vercelArgs) k = some v) :
    lookupA (deployRequestBody o env).meta k = some v := by
  unfold deployRequestBody
  dsimp only
  unfold vercelMeta
  exact lookupA_jsSpread (parseMetaArgs o.vercelArgs) _ k v
    (nodup_keys_parseMetaArgs o.vercelArgs) h

/-- Witness for C8: `-m githubCommitSha=override` collides with the
explicit `githubCommitSha` metadata (from `GITHUB_SHA=abc`) and the parsed
value is the one sent. -/
theorem deployRequestBody_c8_witness :
    lookupA (parseMetaArgs (some "-m githubCommitSha=override".toList))
      "githubCommitSha".toList = some "override".toList ∧
    lookupA
      (deployRequestBody
        { token := "t".toList, projectId := "p".toList, orgId := "o".toList,
          workingDirectory := ".".toList,
          vercelArgs := some "-m githubCommitSha=override".toList }
        { GITHUB_SHA := some "abc".toList }).meta
      "githubCommitSha".toList = some "override".toList := by
  have hp : lookupA (parseMetaArgs (some "-m githubCommitSha=override".toList))
      "githubCommitSha".toList = some "override".toList := by
    simp [parseMetaArgs, tokenize, parseMetaLoop, kvSplit, stripEdgeQuotes,
      jsIndexOf, setKey, lookupA, jsIsSpace]
  exact ⟨hp, deployRequestBody_c8 _ _ _ _ hp⟩

/- ===================== C1: append trigger condition ===================== -/

/-- C1 counterexample: a previous body that contains *this run's marker
pair* (header `h`) but not the legacy auto-generated block literals is
replaced wholesale even though append is requested, against the claim's
"appends iff the previous body contains this run's marker pair". -/
theorem ensureComment_c1_counterexample :
    (strIncludes (bodyWithHeader "A".toList "h".toList)
        (autoStart "h".toList) = true ∧
      strIncludes (bodyWithHeader "A".toList "h".toList)
        (autoEnd "h".toList) = true) ∧
    ensureComment ⟨"h".toList, true, false, false, false⟩ (fun s => s)
      none none "B".toList
      (some ⟨"x".toList, bodyWithHeader "A".toList "h".toList⟩) =
      .update (bodyWithHeader "B".toList "h".toList) ∧
    bodyWithHeader "B".toList "h".toList ≠
      bodyWithHeader (bodyWithoutHeader (bodyWithHeader "A".toList "h".toList)
        "h".toList ++ '\n' :: "B".toList) "h".toList := by
  decide

/-- C1 (amended): with append requested (and hide-details off), an update
of a found comment appends — concatenating the previous inner content, a
newline and the new body, re-wrapped in this run's markers — if and only
if the previous body contains *both legacy auto-generated block literals*
(`AUTO_COMMENT_START`/`AUTO_COMMENT_END`), which are fixed strings
distinct from this run's header-derived marker pair; otherwise the inner
content is replaced wholesale. -/
theorem ensureComment_c1 (cfg : CommentCfg) (stripOpen : Str → Str)
    (body : Str) (prev : PrevComment)
    (happ : cfg.append = true) (hhd : cfg.hideDetails = false)
    (hb : body ≠ []) (hid : prev.id ≠ [])
    (hsk : handleSkipUnchanged cfg body prev.body = false) :
    ensureComment cfg stripOpen none none body (some prev) =
      (if strIncludes prev.body AUTO_COMMENT_START &&
          strIncludes prev.body AUTO_COMMENT_END then
        .update (bodyWithHeader
          (bodyWithoutHeader prev.body cfg.header ++ '\n' :: body) cfg.header)
      else
        .update (bodyWithHeader body cfg.header)) := by
  unfold ensureComment
  rw [if_neg (by simp [hb]), if_neg hb]
  dsimp only
  simp only [hsk, Bool.false_eq_true, if_false]
  simp only [Option.getD_none, happ, hhd, Bool.true_and]
  by_cases hblk : (strIncludes prev.body AUTO_COMMENT_START &&
      strIncludes prev.body AUTO_COMMENT_END) = true
  · have hpb : prev.body ≠ [] := by
      intro he
      rw [he] at hblk
      exact absurd hblk (by decide)
    rw [hblk]
    unfold getBodyOf
    simp only [Bool.not_true, Bool.false_eq_true, if_false, Bool.not_false,
      Bool.true_eq_false, false_or]
    rw [if_neg hid]
    unfold updateCommentBody
    simp [hpb, hb]
  · rw [Bool.not_eq_true] at hblk
    rw [hblk]
    unfold getBodyOf
    simp only [Bool.not_false, if_true]
    rw [if_neg hid]
    unfold updateCommentBody
    simp [hb]

/- ===================== C2: helper lemmas on jsIndexOf ===================== -/

/-- `isPrefixOf` agrees with the prefix relation. -/
theorem isPrefixOf_eq_true_iff (l1 l2 : Str) :
    l1.isPrefixOf l2 = true ↔ l1 <+: l2 := by
  exact List.isPrefixOf_iff_prefix

/-- A pattern that is a prefix is found at index 0. -/
theorem jsIndexOf_zero (pat l : Str) (h : pat.isPrefixOf l = true) :
    jsIndexOf pat l = some 0 := by
  cases l with
  | nil => unfold jsIndexOf; rw [h]; rfl
  | cons c rest => unfold jsIndexOf; rw [h]; rfl

/-- `jsIndexOf` finds the index of an occurrence that no earlier index
has. -/
theorem jsIndexOf_of_occurs :
    ∀ (pat l : Str) (k : Nat), pat.isPrefixOf (l.drop k) = true →
      (∀ j, j < k → pat.isPrefixOf (l.drop j) = false) →
      jsIndexOf pat l = some k
  | pat, l, 0, h, _ => by
    rw [List.drop_zero] at h
    exact jsIndexOf_zero pat l h
  | pat, [], k + 1, h, hmin => by
    exfalso
    have h0 := hmin 0 (by omega)
    rw [List.drop_nil] at h
    rw [List.drop_zero] at h0
    have : pat = [] := by
      cases pat with
      | nil => rfl
      | cons a b => simp [List.isPrefixOf] at h
    rw [this] at h0
    simp [List.isPrefixOf] at h0
  | pat, c :: rest, k + 1, h, hmin => by
    have h0 := hmin 0 (by omega)
    rw [List.drop_zero] at h0
    unfold jsIndexOf
    rw [h0]
    have hrec := jsIndexOf_of_occurs pat rest k
      (by rw [List.drop_succ_cons] at h; exact h)
      (fun j hj => by
        have := hmin (j + 1) (by omega)
        rw [List.drop_succ_cons] at this
        exact this)
    rw [hrec]
    rfl

/-- When `jsIndexOf` fails, the pattern occurs nowhere. -/
theorem not_occurs_of_jsIndexOf_none :
    ∀ (pat l : Str), jsIndexOf pat l = none →
      ∀ j, pat.isPrefixOf (l.drop j) = false
  | pat, [], h, j => by
    unfold jsIndexOf at h
    rw [List.drop_nil]
    by_cases hp : pat.isPrefixOf ([] : Str) = true
    · rw [hp] at h; simp at h
    · rw [Bool.not_eq_true] at hp
      exact hp
  | pat, c :: rest, h, j => by
    unfold jsIndexOf at h
    by_cases hp : pat.isPrefixOf (c :: rest) = true
    · rw [hp] at h; simp at h
    · rw [Bool.not_eq_true] at hp
      rw [hp] at h
      simp only [Bool.false_eq_true, if_false] at h
      cases hr : jsIndexOf pat rest with
      | some i => rw [hr] at h; simp at h
      | none =>
        cases j with
        | zero => rw [List.drop_zero]; exact hp
        | succ j =>
          rw [List.drop_succ_cons]
          exact not_occurs_of_jsIndexOf_none pat rest hr j

/-- An infix occurrence makes `includes` true. -/
theorem strIncludes_of_occurs (pat l : Str) (h : pat <:+: l) :
    strIncludes l pat = true := by
  obtain ⟨s, t, rfl⟩ := h
  unfold strIncludes
  cases hcase : jsIndexOf pat (s ++ pat ++ t) with
  | some i => rfl
  | none =>
    exfalso
    have hocc := not_occurs_of_jsIndexOf_none pat (s ++ pat ++ t) hcase s.length
    rw [List.append_assoc, List.drop_left] at hocc
    have htrue : pat.isPrefixOf (pat ++ t) = true :=
      (isPrefixOf_eq_true_iff pat (pat ++ t)).mpr ⟨t, rfl⟩
    rw [htrue] at hocc
    simp at hocc

/-- A found index is an occurrence. -/
theorem occurs_of_jsIndexOf_some :
    ∀ (pat l : Str) (j : Nat), jsIndexOf pat l = some j →
      pat.isPrefixOf (l.drop j) = true
  | pat, [], j, h => by
    unfold jsIndexOf at h
    by_cases hp : pat.isPrefixOf ([] : Str) = true
    · rw [if_pos hp] at h
      injection h with h
      subst h
      rw [List.drop_nil]
      exact hp
    · rw [if_neg hp] at h
      simp at h
  | pat, c :: rest, j, h => by
    unfold jsIndexOf at h
    by_cases hp : pat.isPrefixOf (c :: rest) = true
    · rw [if_pos hp] at h
      injection h with h
      subst h
      rw [List.drop_zero]
      exact hp
    · rw [if_neg hp] at h
      cases hr : jsIndexOf pat rest with
      | none => rw [hr] at h; simp at h
      | some i =>
        rw [hr] at h
        simp only [Option.map_some'] at h
        injection h with h
        subst h
        rw [List.drop_succ_cons]
        exact occurs_of_jsIndexOf_some pat rest i hr

/-- For every marker key, the end marker never occurs inside the start
marker: an occurrence would have to start at offset 0, 1 or 2 (by length),
and each offset mismatches within the first two characters after the
shared `<!-- c15t:<key>` part or at the very head. -/
theorem marker_end_not_in_start (k : Str) :
    strIncludes ("<!-- c15t:".toList ++ (k ++ ":START -->".toList))
      ("<!-- c15t:".toList ++ (k ++ ":END -->".toList)) = false := by
  unfold strIncludes
  cases hcase : jsIndexOf ("<!-- c15t:".toList ++ (k ++ ":END -->".toList))
      ("<!-- c15t:".toList ++ (k ++ ":START -->".toList)) with
  | none => rfl
  | some j =>
    exfalso
    have hocc := occurs_of_jsIndexOf_some _ _ _ hcase
    obtain ⟨t, ht⟩ := (isPrefixOf_eq_true_iff _ _).mp hocc
    have hP : ("<!-- c15t:".toList : Str).length = 10 := by decide
    have hS : ((":START -->".toList : Str)).length = 10 := by decide
    have hE : ((":END -->".toList : Str)).length = 8 := by decide
    have hlen := congrArg List.length ht
    simp only [List.length_append, List.length_drop, hP, hS, hE] at hlen
    have hj2 : j ≤ 2 := by omega
    interval_cases j
    · rw [List.drop_zero] at ht
      rw [List.append_assoc, List.append_assoc] at ht
      have h1 := List.append_cancel_left ht
      have h2 := List.append_cancel_left h1
      have h3 := congrArg (List.take 2) h2
      rw [List.take_append_eq_append_take,
        show (2 : Nat) - (":END -->".toList : Str).length = 0 from by omega,
        List.take_zero, List.append_nil] at h3
      exact absurd h3 (by decide)
    · have hd : ("<!-- c15t:".toList ++ (k ++ ":START -->".toList) : Str).drop 1 =
          ("<!-- c15t:".toList : Str).drop 1 ++ (k ++ ":START -->".toList) := by
        rw [List.drop_append_eq_append_drop,
          show (1 : Nat) - ("<!-- c15t:".toList : Str).length = 0 from by omega,
          List.drop_zero]
      rw [hd, List.append_assoc] at ht
      have h2 := congrArg (List.take 1) ht
      rw [List.take_append_eq_append_take,
        show (1 : Nat) - ("<!-- c15t:".toList : Str).length = 0 from by omega,
        List.take_zero, List.append_nil] at h2
      rw [List.take_append_eq_append_take,
        show (1 : Nat) - (("<!-- c15t:".toList : Str).drop 1).length = 0 from by
          rw [List.length_drop]; omega,
        List.take_zero, List.append_nil] at h2
      exact absurd h2 (by decide)
    · have hd : ("<!-- c15t:".toList ++ (k ++ ":START -->".toList) : Str).drop 2 =
          ("<!-- c15t:".toList : Str).drop 2 ++ (k ++ ":START -->".toList) := by
        rw [List.drop_append_eq_append_drop,
          show (2 : Nat) - ("<!-- c15t:".toList : Str).length = 0 from by omega,
          List.drop_zero]
      rw [hd, List.append_assoc] at ht
      have h2 := congrArg (List.take 1) ht
      rw [List.take_append_eq_append_take,
        show (1 : Nat) - ("<!-- c15t:".toList : Str).length = 0 from by omega,
        List.take_zero, List.append_nil] at h2
      rw [List.take_append_eq_append_take,
        show (1 : Nat) - (("<!-- c15t:".toList : Str).drop 2).length = 0 from by
          rw [List.length_drop]; omega,
        List.take_zero, List.append_nil] at h2
      exact absurd h2 (by decide)

/-- For every header, this run's end marker never occurs inside its start
marker (both are built from the same key). -/
theorem autoEnd_not_in_autoStart (header : Str) :
    strIncludes (autoStart header) (autoEnd header) = false := by
  unfold autoStart autoEnd
  exact marker_end_not_in_start _

/-- A trim-fixed string sheds no characters on either side. -/
theorem trim_parts (body : Str) (h : trimStr body = body) :
    body.dropWhile jsIsSpace = body ∧
    body.reverse.dropWhile jsIsSpace = body.reverse := by
  have hlen1 : (body.dropWhile jsIsSpace).length ≤ body.length :=
    (List.dropWhile_sublist jsIsSpace).length_le
  have hlen2 : ((body.dropWhile jsIsSpace).reverse.dropWhile jsIsSpace).length ≤
      (body.dropWhile jsIsSpace).reverse.length :=
    (List.dropWhile_sublist jsIsSpace).length_le
  have hlen0 : (trimStr body).length =
      ((body.dropWhile jsIsSpace).reverse.dropWhile jsIsSpace).length := by
    unfold trimStr
    rw [List.length_reverse]
  have hfull : (body.dropWhile jsIsSpace).length = body.length := by
    rw [h] at hlen0
    rw [List.length_reverse] at hlen2
    omega
  have hd : body.dropWhile jsIsSpace = body :=
    (List.dropWhile_sublist jsIsSpace).eq_of_length hfull
  refine ⟨hd, ?_⟩
  have hfull2 : (body.reverse.dropWhile jsIsSpace).length =
      body.reverse.length := by
    rw [h, hd] at hlen0
    rw [List.length_reverse]
    omega
  exact (List.dropWhile_sublist jsIsSpace).eq_of_length hfull2

/-- A nonempty trim-fixed string starts with a non-space character, so
`dropWhile` over an extension keeps it intact. -/
theorem dropWhile_append_of_head (body tail0 : Str) (hb : body ≠ [])
    (hd : body.dropWhile jsIsSpace = body) :
    (body ++ tail0).dropWhile jsIsSpace = body ++ tail0 := by
  cases body with
  | nil => exact absurd rfl hb
  | cons b0 brest =>
    have hb0 : jsIsSpace b0 = false := by
      by_contra hb0
      rw [Bool.not_eq_false] at hb0
      rw [List.dropWhile_cons, if_pos hb0] at hd
      have := (List.dropWhile_sublist (l := brest) jsIsSpace).length_le
      have hlen := congrArg List.length hd
      simp only [List.length_cons] at hlen
      omega
    rw [List.cons_append, List.dropWhile_cons, if_neg (by simp [hb0])]

/-- Trimming the `\n`-wrapped copy of a nonempty trim-fixed body recovers
the body. -/
theorem trim_nl_wrap (body : Str) (hb : body ≠ [])
    (h : trimStr body = body) :
    trimStr ('\n' :: (body ++ ['\n'])) = body := by
  obtain ⟨hd, hr⟩ := trim_parts body h
  unfold trimStr
  rw [List.dropWhile_cons, if_pos (by decide)]
  rw [dropWhile_append_of_head body ['\n'] hb hd]
  rw [List.reverse_append]
  simp only [List.reverse_cons, List.reverse_nil, List.nil_append,
    List.singleton_append]
  rw [List.dropWhile_cons, if_pos (by decide), hr, List.reverse_reverse]

/-- An occurrence overlapping the `\n` separator position forces `\n` into
the pattern. -/
theorem newline_mem_of_occurs (pat X Y : Str) (j : Nat)
    (hocc : pat.isPrefixOf ((X ++ '\n' :: Y).drop j) = true)
    (hj : j ≤ X.length) (hp : X.length < j + pat.length) :
    '\n' ∈ pat := by
  obtain ⟨t, ht⟩ := (isPrefixOf_eq_true_iff _ _).mp hocc
  have hd : (X ++ '\n' :: Y).drop j = X.drop j ++ '\n' :: Y := by
    rw [List.drop_append_eq_append_drop, Nat.sub_eq_zero_of_le hj,
      List.drop_zero]
  have hpat : pat = ((X ++ '\n' :: Y).drop j).take pat.length := by
    rw [← ht, List.take_left]
  rw [hd, List.take_append_eq_append_take] at hpat
  have hn : pat.length - (X.drop j).length =
      (pat.length - (X.drop j).length - 1) + 1 := by
    rw [List.length_drop]
    omega
  rw [hn, List.take_succ_cons] at hpat
  rw [hpat]
  exact List.mem_append_right _ (List.mem_cons_self _ _)

/-- An occurrence lying entirely inside the middle block of a three-way
split is an infix of that block. -/
theorem infix_of_occurs_mid (pat A B C : Str) (j : Nat)
    (hocc : pat.isPrefixOf ((A ++ B ++ C).drop j) = true)
    (hja : A.length ≤ j) (hjb : j + pat.length ≤ A.length + B.length) :
    pat <:+: B := by
  obtain ⟨t, ht⟩ := (isPrefixOf_eq_true_iff _ _).mp hocc
  have hd : (A ++ B ++ C).drop j = B.drop (j - A.length) ++ C := by
    rw [List.append_assoc, List.drop_append_eq_append_drop,
      List.drop_eq_nil_of_le hja, List.nil_append,
      List.drop_append_eq_append_drop]
    have h0 : j - A.length - B.length = 0 := by omega
    rw [h0, List.drop_zero]
  have hpat : pat = ((A ++ B ++ C).drop j).take pat.length := by
    rw [← ht, List.take_left]
  have h1 : pat.length - (B.drop (j - A.length)).length = 0 := by
    rw [List.length_drop]
    omega
  rw [hd, List.take_append_eq_append_take, h1, List.take_zero,
    List.append_nil] at hpat
  refine List.infix_iff_prefix_suffix.mpr ⟨B.drop (j - A.length), ?_,
    List.drop_suffix _ _⟩
  rw [hpat]
  exact ⟨(B.drop (j - A.length)).drop pat.length, List.take_append_drop _ _⟩

/-- In a marker-wrapped body, the end marker is first found exactly at the
position after the wrapped body, provided it occurs neither in the start
marker nor in the body and contains no newline. -/
theorem jsIndexOf_end_marker (startD endD body : Str)
    (hnl : ¬ '\n' ∈ endD)
    (hs : strIncludes startD endD = false)
    (hb : strIncludes body endD = false) :
    jsIndexOf endD (startD ++ '\n' :: (body ++ '\n' :: endD)) =
      some (startD.length + body.length + 2) := by
  apply jsIndexOf_of_occurs
  · have hL : startD ++ '\n' :: (body ++ '\n' :: endD) =
        (startD ++ '\n' :: (body ++ ['\n'])) ++ endD := by
      simp
    have hlen : (startD ++ '\n' :: (body ++ ['\n'])).length =
        startD.length + body.length + 2 := by
      simp only [List.length_append, List.length_cons, List.length_nil]
      omega
    rw [hL, ← hlen, List.drop_left]
    exact (isPrefixOf_eq_true_iff _ _).mpr (List.prefix_refl _)
  · intro j hj
    by_contra hocc0
    rw [Bool.not_eq_false] at hocc0
    by_cases hj1 : j + endD.length ≤ startD.length
    · have hocc1 : endD.isPrefixOf
          ((([] : Str) ++ startD ++ ('\n' :: (body ++ '\n' :: endD))).drop j) =
            true := by
        simpa using hocc0
      have hinf := infix_of_occurs_mid endD [] startD _ j hocc1
        (by simp) (by simpa using hj1)
      rw [strIncludes_of_occurs endD startD hinf] at hs
      simp at hs
    · by_cases hj2 : j ≤ startD.length
      · exact hnl (newline_mem_of_occurs endD startD (body ++ '\n' :: endD) j
          hocc0 hj2 (by omega))
      · by_cases hj3 : j + endD.length ≤ startD.length + 1 + body.length
        · have hocc1 : endD.isPrefixOf
              (((startD ++ ['\n']) ++ body ++ ('\n' :: endD)).drop j) =
                true := by
            simpa using hocc0
          have hinf := infix_of_occurs_mid endD (startD ++ ['\n']) body _ j
            hocc1
            (by
              simp only [List.length_append, List.length_cons,
                List.length_nil]
              omega)
            (by
              simp only [List.length_append, List.length_cons,
                List.length_nil]
              omega)
          rw [strIncludes_of_occurs endD body hinf] at hb
          simp at hb
        · have hocc1 : endD.isPrefixOf
              (((startD ++ '\n' :: body) ++ '\n' :: endD).drop j) = true := by
            simpa using hocc0
          exact hnl (newline_mem_of_occurs endD (startD ++ '\n' :: body) endD j
            hocc1
            (by
              simp only [List.length_append, List.length_cons]
              omega)
            (by
              simp only [List.length_append, List.length_cons]
              omega))

/-- After a replace-mode write, `commentsEqual` holds between the rendered
body and the freshly wrapped stored body, provided the body is nonempty,
trim-fixed, and does not itself contain either marker (the end marker is
also assumed newline-free and absent from the start marker, which holds
for every marker pair actually generated). -/
theorem commentsEqual_wrap (header body : Str) (hb : body ≠ [])
    (htr : trimStr body = body)
    (hsm : strIncludes body (autoStart header) = false)
    (hem : strIncludes body (autoEnd header) = false)
    (hse : strIncludes (autoStart header) (autoEnd header) = false)
    (hnl : ¬ '\n' ∈ autoEnd header) :
    commentsEqual body (bodyWithHeader body header) header = true := by
  have hnone : jsIndexOf (autoStart header) body = none := by
    unfold strIncludes at hsm
    cases hcase : jsIndexOf (autoStart header) body with
    | none => rfl
    | some i => rw [hcase] at hsm; simp at hsm
  have hzero : jsIndexOf (autoStart header)
      (autoStart header ++ '\n' :: (body ++ '\n' :: autoEnd header)) =
        some 0 :=
    jsIndexOf_zero _ _ ((isPrefixOf_eq_true_iff _ _).mpr ⟨_, rfl⟩)
  have hend := jsIndexOf_end_marker (autoStart header) (autoEnd header) body
    hnl hse hem
  have hinner : jsSubstring
      (autoStart header ++ '\n' :: (body ++ '\n' :: autoEnd header))
      (0 + (autoStart header).length)
      ((autoStart header).length + body.length + 2) =
        '\n' :: (body ++ ['\n']) := by
    unfold jsSubstring
    have hL : autoStart header ++ '\n' :: (body ++ '\n' :: autoEnd header) =
        (autoStart header ++ '\n' :: (body ++ ['\n'])) ++ autoEnd header := by
      simp
    have hlen : (autoStart header ++ '\n' :: (body ++ ['\n'])).length =
        (autoStart header).length + body.length + 2 := by
      simp only [List.length_append, List.length_cons, List.length_nil]
      omega
    rw [Nat.zero_add, Nat.max_eq_right (by omega), Nat.min_eq_left (by omega),
      hL, ← hlen, List.take_left, List.drop_left]
  unfold commentsEqual bodyWithHeader
  simp only [hnone, hzero, hend, hinner, trim_nl_wrap body hb htr,
    decide_eq_true_eq]

/- ===================== C2: skip-unchanged idempotence ===================== -/

/-- C2 counterexample, three failure modes of the claim as stated.  (a)
With `skipUnchanged` on and append off, the rendered body `"A "`
(trailing space) is written by the first call, and the second call with
the unchanged rendered body writes *again* instead of being a no-op:
`commentsEqual` trims the stored inner content (`"A"`), which is not
byte-identical to the rendered body.  (b) With append on and the legacy
auto-generated block present in the previous comment, the first call
appends (storing inner `"Z\nA"`), and the second call writes again.  (c)
For the header `":START -->\n<!-- c15t:"` — whose generated markers embed
marker syntax and a newline — a body that is trim-fixed and contains
neither marker is still rewritten by the second call: the end marker's
first occurrence in the stored body lands before the wrapped body, so the
normalised inner span is wrong. -/
theorem ensureComment_c2_counterexample :
    (ensureComment ⟨[], false, false, true, false⟩ (fun s => s) none none
      "A ".toList (some ⟨"x".toList, "old".toList⟩) =
      .update (bodyWithHeader "A ".toList []) ∧
     ensureComment ⟨[], false, false, true, false⟩ (fun s => s) none none
      "A ".toList (some ⟨"x".toList, bodyWithHeader "A ".toList []⟩) =
      .update (bodyWithHeader "A ".toList [])) ∧
    (ensureComment ⟨[], true, false, true, false⟩ (fun s => s) none none
      "A".toList
      (some ⟨"x".toList,
        bodyWithHeader "Z".toList [] ++ AUTO_COMMENT_START ++
          AUTO_COMMENT_END⟩) =
      .update (bodyWithHeader ("Z".toList ++ '\n' :: "A".toList) []) ∧
     ensureComment ⟨[], true, false, true, false⟩ (fun s => s) none none
      "A".toList
      (some ⟨"x".toList,
        bodyWithHeader ("Z".toList ++ '\n' :: "A".toList) []⟩) =
      .update (bodyWithHeader "A".toList [])) ∧
    (trimStr "<!-- c15t::END -->".toList = "<!-- c15t::END -->".toList ∧
     strIncludes "<!-- c15t::END -->".toList
       (autoStart ":START -->\n<!-- c15t:".toList) = false ∧
     strIncludes "<!-- c15t::END -->".toList
       (autoEnd ":START -->\n<!-- c15t:".toList) = false ∧
     ensureComment
       ⟨":START -->\n<!-- c15t:".toList, false, false, true, false⟩
       (fun s => s) none none "<!-- c15t::END -->".toList
       (some ⟨"x".toList, "old".toList⟩) =
       .update (bodyWithHeader "<!-- c15t::END -->".toList
         ":START -->\n<!-- c15t:".toList) ∧
     ensureComment
       ⟨":START -->\n<!-- c15t:".toList, false, false, true, false⟩
       (fun s => s) none none "<!-- c15t::END -->".toList
       (some ⟨"x".toList,
         bodyWithHeader "<!-- c15t::END -->".toList
           ":START -->\n<!-- c15t:".toList⟩) =
       .update (bodyWithHeader "<!-- c15t::END -->".toList
         ":START -->\n<!-- c15t:".toList)) := by
  exact ⟨⟨by decide, by decide⟩, ⟨by decide, by decide⟩,
    by decide, by decide, by decide, by decide, by decide⟩

/-- C2 (amended): with `skipUnchanged` enabled, append off, and a header
whose generated marker pair contains no newline, for every nonempty
rendered body that is trim-fixed and contains neither of this run's
markers, running the update path twice performs exactly one write: the
first call (whose body differs from the previous comment) rewrites the
comment to the wrapped body, whose inner marker content is byte-identical
to the rendered body, and the second call is a no-op. -/
theorem ensureComment_c2 (cfg : CommentCfg) (stripOpen : Str → Str)
    (body prevBody pid : Str)
    (ha : cfg.append = false) (hsu : cfg.skipUnchanged = true)
    (hnl : ¬ '\n' ∈ autoEnd cfg.header)
    (hb : body ≠ []) (htr : trimStr body = body)
    (hsm : strIncludes body (autoStart cfg.header) = false)
    (hem : strIncludes body (autoEnd cfg.header) = false)
    (hid : pid ≠ [])
    (hneq : commentsEqual body prevBody cfg.header = false) :
    ensureComment cfg stripOpen none none body (some ⟨pid, prevBody⟩) =
      .update (bodyWithHeader body cfg.header) ∧
    ensureComment cfg stripOpen none none body
      (some ⟨pid, bodyWithHeader body cfg.header⟩) = .skipUnch := by
  constructor
  · unfold ensureComment
    rw [if_neg (by simp [hb]), if_neg hb]
    dsimp only
    have hskFalse : handleSkipUnchanged cfg body prevBody = false := by
      unfold handleSkipUnchanged
      rw [hsu, hneq, Bool.true_and]
    simp only [hskFalse, Bool.false_eq_true, if_false, Option.getD_none, ha,
      Bool.false_and]
    unfold getBodyOf
    simp only [Bool.not_false, if_true]
    rw [if_neg hid]
    unfold updateCommentBody
    simp [hb]
  · unfold ensureComment
    rw [if_neg (by simp [hb]), if_neg hb]
    dsimp only
    have hskTrue : handleSkipUnchanged cfg body
        (bodyWithHeader body cfg.header) = true := by
      unfold handleSkipUnchanged
      rw [hsu, Bool.true_and]
      exact commentsEqual_wrap cfg.header body hb htr hsm hem
        (autoEnd_not_in_autoStart cfg.header) hnl
    simp [hskTrue]

/-- Witness for C2 at the rendered body `"A"` and a non-default header. -/
theorem ensureComment_c2_witness :
    (ensureComment ⟨[], false, false, true, false⟩ (fun s => s) none none
      "A".toList (some ⟨"x".toList, "old".toList⟩) =
      .update (bodyWithHeader "A".toList []) ∧
     ensureComment ⟨[], false, false, true, false⟩ (fun s => s) none none
      "A".toList (some ⟨"x".toList, bodyWithHeader "A".toList []⟩) =
      .skipUnch) ∧
    (ensureComment ⟨"h".toList, false, false, true, false⟩ (fun s => s)
      none none "A".toList (some ⟨"x".toList, "old".toList⟩) =
      .update (bodyWithHeader "A".toList "h".toList) ∧
     ensureComment ⟨"h".toList, false, false, true, false⟩ (fun s => s)
      none none "A".toList
      (some ⟨"x".toList, bodyWithHeader "A".toList "h".toList⟩) =
      .skipUnch) :=
  ⟨ensureComment_c2 ⟨[], false, false, true, false⟩ (fun s => s) "A".toList
    "old".toList "x".toList rfl rfl (by decide) (by decide) (by decide)
    (by decide) (by decide) (by decide) (by decide),
   ensureComment_c2 ⟨"h".toList, false, false, true, false⟩ (fun s => s)
    "A".toList "old".toList "x".toList rfl rfl (by decide) (by decide)
    (by decide) (by decide) (by decide) (by decide) (by decide)⟩

/-- Witness for C1: a previous body carrying the legacy auto-generated
block literals takes the append branch. -/
theorem ensureComment_c1_witness :
    ensureComment ⟨"h".toList, true, false, false, false⟩ (fun s => s)
      none none "B".toList
      (some ⟨"x".toList, AUTO_COMMENT_START ++ AUTO_COMMENT_END⟩) =
      (if strIncludes (AUTO_COMMENT_START ++ AUTO_COMMENT_END)
          AUTO_COMMENT_START &&
          strIncludes (AUTO_COMMENT_START ++ AUTO_COMMENT_END)
            AUTO_COMMENT_END then
        .update (bodyWithHeader
          (bodyWithoutHeader (AUTO_COMMENT_START ++ AUTO_COMMENT_END)
            "h".toList ++ '\n' :: "B".toList) "h".toList)
      else
        .update (bodyWithHeader "B".toList "h".toList)) :=
  ensureComment_c1 ⟨"h".toList, true, false, false, false⟩ (fun s => s)
    "B".toList ⟨"x".toList, AUTO_COMMENT_START ++ AUTO_COMMENT_END⟩
    rfl rfl (by decide) (by decide) (by decide)
